import Mathlib

/-!
Shallow embedding of `src/download_gsc_data.py` (Google Search Console bulk
downloader).  The program authenticates with a service account, runs one
search-analytics query per hard-coded report definition, reshapes the
response into a flat table, and writes one CSV file per distinct date.

Modelling conventions:
* pandas `DataFrame`s become `DataFrame` (a column-name list plus rows of
  string cells; metric values are carried as opaque strings, no claim
  computes on them);
* the filesystem plus stdout become `World` (directories, files as an
  ordered path-to-content association list with overwrite-on-rewrite,
  and a structured log where each `LogEvent` constructor corresponds to
  one `print` site in the source, carrying the interpolated data);
* the external API and the credential file are oracle parameters
  (`ApiOutcome`, `AuthOutcome`): the behaviour of the code is a function of
  whatever the collaborator returns;
* The Python in-place mutation of the `dimensions` list argument
  (line 63, where the method appends the date dimension) is state-passed: `executeRequest`
  returns `dimsAfter`, the final state of the list object the caller
  passed; `main` passes a copy (line 174), so its stored report table is
  returned unchanged by `runMain`.
-/

namespace Gsc

/-! ## Dates: strptime and strftime with the format %Y-%m-%d -/

structure Date where
  year : Nat
  month : Nat
  day : Nat
deriving DecidableEq, Repr

/-- Gregorian leap year, as in Python `datetime`. -/
def isLeapYear (y : Nat) : Bool :=
  y % 4 == 0 && (y % 100 != 0 || y % 400 == 0)

/-- Days in a month, as validated by `datetime.date`. -/
def daysInMonth (y m : Nat) : Nat :=
  if m == 2 then (if isLeapYear y then 29 else 28)
  else if m == 4 || m == 6 || m == 9 || m == 11 then 30
  else 31

/-- Split a character list on `-`, like the literal `-` separators of the
`%Y-%m-%d` format string. -/
def splitOnDash : List Char → List (List Char)
  | [] => [[]]
  | c :: rest =>
    let r := splitOnDash rest
    if c = '-' then [] :: r
    else (c :: r.headD []) :: r.tail

/-- Value of a digit string (no sign, no spaces), `none` if empty or
non-digit: the character classes the CPython strptime regex accepts. -/
def digitsToNat? (cs : List Char) : Option Nat :=
  if cs ≠ [] ∧ cs.all Char.isDigit then
    some (cs.foldl (fun n c => n * 10 + (c.toNat - 48)) 0)
  else none

/-- Line 115, strptime with format %Y-%m-%d followed by .date(), returning
`none` where Python raises ValueError.  CPython compiles the format to the
regex `(?P<Y>\d\d\d\d)-(?P<m>1[0-2]|0[1-9]|[1-9])-(?P<d>3[01]|[12]\d|0[1-9]|[1-9])`,
requires the whole string to match, then builds datetime.date(y, m, d),
which additionally checks `1 <= y` and `d <= daysInMonth y m`. -/
def strptimeYMD (s : String) : Option Date :=
  match splitOnDash s.data with
  | [ys, ms, ds] =>
    match digitsToNat? ys, digitsToNat? ms, digitsToNat? ds with
    | some y, some m, some d =>
      if ys.length = 4 ∧ ms.length ≤ 2 ∧ ds.length ≤ 2
          ∧ 1 ≤ m ∧ m ≤ 12 ∧ 1 ≤ d ∧ d ≤ 31
          ∧ 1 ≤ y ∧ d ≤ daysInMonth y m
      then some ⟨y, m, d⟩ else none
    | _, _, _ => none
  | _ => none

/-- Two-digit zero padding, as the strftime codes %m and %d produce. -/
def pad2 (n : Nat) : String :=
  if n < 10 then "0" ++ toString n else toString n

/-- Line 120, strftime with format %Y-%m-%d (on Linux %Y prints the year
unpadded; all years of interest have four digits). -/
def strftimeYMD (d : Date) : String :=
  toString d.year ++ "-" ++ pad2 d.month ++ "-" ++ pad2 d.day

/-! ## DataFrames -/

/-- A pandas DataFrame as used by this program: named columns over rows of
string cells. -/
structure DataFrame where
  columns : List String
  rows : List (List String)
deriving DecidableEq, Repr

/-- `pd.DataFrame()`. -/
def DataFrame.emptyDF : DataFrame := ⟨[], []⟩

/-- pandas `df.empty`: true when either axis has length zero. -/
def DataFrame.isEmpty (df : DataFrame) : Bool :=
  df.rows.isEmpty || df.columns.isEmpty

/-- Cell of a row at a column index (rows are aligned with `columns`). -/
def cellAt (row : List String) (i : Nat) : String := row.getD i ""

/-! ## Log events: one constructor per `print` site, carrying the data the
f-string interpolates. -/

inductive LogEvent where
  /-- line 36: the service-account key file was not found at the path -/
  | authFileNotFound (path : String)
  /-- line 40: other authentication error -/
  | authError (msg : String)
  /-- line 58: API service is not initialized -/
  | serviceNotInitialized
  /-- line 79: no data found for dimensions / date range -/
  | noDataFound (dims : List String) (startDate endDate : String)
  /-- lines 92-93: HTTP error -/
  | httpError (content : String)
  /-- line 96: other error executing the request -/
  | requestError (msg : String)
  /-- line 104: date column not found -/
  | noDateColumn (reportType : String)
  /-- line 110: splitting into n daily files -/
  | splittingInfo (reportType : String) (n : Nat)
  /-- line 126: skipping group with invalid date format -/
  | invalidDateFormat (dateStr : String)
  /-- line 128: could not save file for date -/
  | saveError (dateStr msg : String)
  /-- line 130: successfully saved daily files -/
  | savedInfo (reportType baseDir : String)
  /-- line 167: fetching report data -/
  | fetchingInfo (reportName startDate endDate : String)
  /-- line 182: no data returned for report -/
  | noDataForReport (reportName : String)
  /-- line 162: failed to initialize API -/
  | failedInit
deriving DecidableEq, Repr

/-! ## World: filesystem plus log -/

/-- CSV file content as written by `daily_df.to_csv(file_path, index=False)`:
a header row (the column names) followed by the data rows. -/
structure Csv where
  header : List String
  rows : List (List String)
deriving DecidableEq, Repr

/-- Filesystem (directories and files) plus the stdout log. -/
structure World where
  dirs : List String
  files : List (String × Csv)
  log : List LogEvent
deriving DecidableEq, Repr

def World.emptyW : World := ⟨[], [], []⟩

/-- `os.makedirs(p, exist_ok=True)`. -/
def makedirs (w : World) (p : String) : World :=
  if w.dirs.contains p then w else { w with dirs := w.dirs ++ [p] }

/-- Store content at a path in an association list: overwrite the existing
entry for the path, else append a new entry at the end. -/
def upsert : List (String × Csv) → String → Csv → List (String × Csv)
  | [], p, c => [(p, c)]
  | e :: rest, p, c =>
    if e.1 = p then (p, c) :: rest else e :: upsert rest p c

/-- `daily_df.to_csv(file_path, index=False)`: overwrite if the path already
exists, else create. -/
def writeFileW (w : World) (p : String) (c : Csv) : World :=
  { w with files := upsert w.files p c }

/-- Content currently stored at a path, if any. -/
def lookupFiles : List (String × Csv) → String → Option Csv
  | [], _ => none
  | e :: rest, p => if e.1 = p then some e.2 else lookupFiles rest p

def fileLookup (w : World) (p : String) : Option Csv :=
  lookupFiles w.files p

def World.logMsg (w : World) (e : LogEvent) : World :=
  { w with log := w.log ++ [e] }

/-! ## `save_daily_csvs(df, report_type, base_dir)` (lines 99-130) -/

/-- Lexicographic strictly-less on character lists by code point, the
ordering Python uses to compare strings. -/
def strLtChars : List Char → List Char → Bool
  | [], [] => false
  | [], _ :: _ => true
  | _ :: _, [] => false
  | a :: as, b :: bs =>
    if a.toNat < b.toNat then true
    else if b.toNat < a.toNat then false
    else strLtChars as bs

/-- Non-strict string comparison by code point. -/
def strLe (s t : String) : Bool := ! strLtChars t.data s.data

/-- Insert a key into a sorted list of keys. -/
def insertSorted (k : String) : List String → List String
  | [] => [k]
  | x :: xs => if strLe k x then k :: x :: xs else x :: insertSorted k xs

/-- Sort string keys ascending (insertion sort). -/
def sortStrings : List String → List String
  | [] => []
  | x :: xs => insertSorted x (sortStrings xs)

/-- The distinct values of the date column, in ascending order:
df.groupby at line 108 sorts group keys (the pandas sort default, comparing
strings by code point as Python does). -/
def dateKeys (df : DataFrame) : List String :=
  sortStrings (df.rows.map (fun r => cellAt r (df.columns.indexOf "date"))).dedup

/-- The rows of one groupby group, in original row order. -/
def groupRows (df : DataFrame) (k : String) : List (List String) :=
  df.rows.filter (fun r => cellAt r (df.columns.indexOf "date") = k)

/-- The groupby at line 108: sorted keys, each paired with its rows. -/
def groupByDate (df : DataFrame) : List (String × List (List String)) :=
  (dateKeys df).map (fun k => (k, groupRows df k))

/-- `os.path.join(base_dir, report_type)` (neither operand ends in a
separator in this program). -/
def dirPathOf (baseDir reportType : String) : String :=
  baseDir ++ "/" ++ reportType

/-- Line 120: the file name built from the report type and the
parsed-then-reformatted date. -/
def fileNameOf (reportType : String) (d : Date) : String :=
  reportType ++ "_" ++ strftimeYMD d ++ ".csv"

def filePathOf (baseDir reportType : String) (d : Date) : String :=
  dirPathOf baseDir reportType ++ "/" ++ fileNameOf reportType d

/-- Body of the `for date_str, daily_df in grouped:` loop (lines 112-128):
parse the key, create the directory, write the CSV of the group; a ValueError
from strptime skips the group with a log line. -/
def saveStep (reportType baseDir : String) (columns : List String)
    (w : World) (g : String × List (List String)) : World :=
  match strptimeYMD g.1 with
  | some dateObj =>
    let w := makedirs w (dirPathOf baseDir reportType)
    writeFileW w (filePathOf baseDir reportType dateObj) ⟨columns, g.2⟩
  | none => w.logMsg (.invalidDateFormat g.1)

/-- `save_daily_csvs` (lines 99-130). -/
def saveDailyCsvs (df : DataFrame) (reportType baseDir : String) (w : World) : World :=
  if ¬ df.columns.contains "date" then
    w.logMsg (.noDateColumn reportType)
  else
    let grouped := groupByDate df
    let w := w.logMsg (.splittingInfo reportType grouped.length)
    let w := grouped.foldl (saveStep reportType baseDir df.columns) w
    w.logMsg (.savedInfo reportType baseDir)

/-! ## `SearchConsoleAPI` (lines 10-97) -/

/-- One row of the API response: `{keys: [...], clicks, impressions, ctr,
position}` (the key order of the JSON response, as documented in the
external-interface section of the spec).  Metric values are opaque strings. -/
structure ApiRow where
  keys : List String
  clicks : String
  impressions : String
  ctr : String
  position : String
deriving DecidableEq, Repr

/-- What the external `searchanalytics().query(...).execute()` call does:
returns a response (whose `rows` key may be absent), raises `HttpError`, or
raises some other exception. -/
inductive ApiOutcome where
  | response (rows : Option (List ApiRow))
  | raiseHttpError (content : String)
  | raiseOther (msg : String)
deriving DecidableEq, Repr

/-- The `request_body` dict built at lines 65-71. -/
structure RequestBody where
  startDate : String
  endDate : String
  dimensions : List String
  rowLimit : Nat
  startRow : Nat
deriving DecidableEq, Repr

/-- Result of one `execute_request` call.  `dimsAfter` is the final state of
the list object the caller passed as `dimensions` (the method appends to it
in place at line 63).  `requestsSent` lists the requests actually issued to
the API during the call. -/
structure ExecResult where
  df : DataFrame
  dimsAfter : List String
  requestsSent : List RequestBody
  log : List LogEvent
deriving DecidableEq, Repr

/-- The metric columns of the response DataFrame after the keys column is
dropped, in dict-key order. -/
def metricCols : List String := ["clicks", "impressions", "ctr", "position"]

/-- Lines 82-87: the DataFrame built from the response rows has columns
`[keys, clicks, impressions, ctr, position]` (insertion order of the first
row dict); the column assignment at line 86 appends one new column per
dimension at the end; the drop at line 87 removes the keys column.  Net
effect: metric columns first, then the dimension columns, with the keys
tuple of each row split across the dimension columns. -/
def reshapeResponse (dims : List String) (rows : List ApiRow) : DataFrame :=
  ⟨metricCols ++ dims,
   rows.map (fun r => [r.clicks, r.impressions, r.ctr, r.position] ++ r.keys)⟩

/-- Lines 61-63: add the date dimension to the list when absent (by an
in-place append to the caller-supplied list object). -/
def dimsWithDate (dimensions : List String) : List String :=
  if dimensions.contains "date" then dimensions else dimensions ++ ["date"]

/-- `execute_request` (lines 43-97).  `service` is the authenticated handle
(`none` when authentication failed); `api` is what the one external query
call would do.  When the row dicts of the response do not all carry exactly
one key per requested dimension, the pandas column assignment at line 86
raises ValueError (and with zero rows, the keys lookup raises KeyError),
caught by the generic handler at lines 95-97. -/
def executeRequest (service : Option Unit) (propertyUri startDate endDate : String)
    (dimensions : List String) (rowLimit : Nat) (api : ApiOutcome) : ExecResult :=
  match service with
  | none => ⟨.emptyDF, dimensions, [], [.serviceNotInitialized]⟩
  | some _ =>
    let dims := dimsWithDate dimensions
    let body : RequestBody := ⟨startDate, endDate, dims, rowLimit, 0⟩
    match api with
    | .response none =>
      ⟨.emptyDF, dims, [body], [.noDataFound dims startDate endDate]⟩
    | .response (some rows) =>
      if !rows.isEmpty && rows.all (fun r => r.keys.length == dims.length) then
        ⟨reshapeResponse dims rows, dims, [body], []⟩
      else
        ⟨.emptyDF, dims, [body], [.requestError "column assignment failed"]⟩
    | .raiseHttpError content =>
      ⟨.emptyDF, dims, [body], [.httpError content]⟩
    | .raiseOther msg =>
      ⟨.emptyDF, dims, [body], [.requestError msg]⟩

/-! ## `main` (lines 133-186) -/

/-- What `service_account.Credentials.from_service_account_file` +
`build(...)` would do for the given credential file. -/
inductive AuthOutcome where
  | ok
  | fileNotFound
  | otherError (msg : String)
deriving DecidableEq, Repr

/-- `_authenticate` (lines 28-41): returns the handle (or `None`) and the
log lines printed. -/
def authenticate (serviceAccountFile : String) (outcome : AuthOutcome) :
    Option Unit × List LogEvent :=
  match outcome with
  | .ok => (some (), [])
  | .fileNotFound => (none, [.authFileNotFound serviceAccountFile])
  | .otherError msg => (none, [.authError msg])

/-- `dimensions_list.copy()` (line 174): a fresh list object with the same
elements.  In the state-passing embedding, passing a copy means the stored
list is not updated from the `dimsAfter` of the callee. -/
def listCopy (l : List String) : List String := l

/-- The seven hard-coded report definitions (lines 148-156), in dict
insertion order. -/
def reportsToRun : List (String × List String) :=
  [("page_query_country_device", ["page", "query", "country", "device"]),
   ("search_appearance", ["searchAppearance"]),
   ("query_page", ["query", "page"]),
   ("page", ["page"]),
   ("query", ["query"]),
   ("country", ["country"]),
   ("device", ["device"])]

/-- One iteration of the report loop (lines 166-182): fetch with a copy of
the stored dimension list, then save the daily CSVs if the DataFrame is
non-empty, else just log. -/
def reportStep (propertyUri startDate endDate outputDir : String) (limit : Nat)
    (api : String → ApiOutcome) (acc : World × List RequestBody)
    (rep : String × List String) : World × List RequestBody :=
  let w := acc.1.logMsg (.fetchingInfo rep.1 startDate endDate)
  let res := executeRequest (some ()) propertyUri startDate endDate
    (listCopy rep.2) limit (api rep.1)
  let w := { w with log := w.log ++ res.log }
  let w :=
    if !res.df.isEmpty then saveDailyCsvs res.df rep.1 outputDir w
    else w.logMsg (.noDataForReport rep.1)
  (w, acc.2 ++ res.requestsSent)

/-- Result of a whole `main` run: final world, every request issued, and the
state of the `reports_to_run` dimension lists after the loop. -/
structure RunResult where
  world : World
  requests : List RequestBody
  reportsTable : List (String × List String)
deriving DecidableEq, Repr

/-- `main` (lines 133-186), as a function of the parsed CLI arguments and
the two external collaborators.  Exits right after authentication when the
handle is `None` (lines 161-163). -/
def runMain (serviceAccountFile propertyUri startDate endDate outputDir : String)
    (limit : Nat) (auth : AuthOutcome) (api : String → ApiOutcome) : RunResult :=
  let (service, authLog) := authenticate serviceAccountFile auth
  let w0 : World := { World.emptyW with log := authLog }
  match service with
  | none => ⟨w0.logMsg .failedInit, [], reportsToRun⟩
  | some _ =>
    let (w, reqs) := reportsToRun.foldl
      (reportStep propertyUri startDate endDate outputDir limit api) (w0, [])
    ⟨w, reqs, reportsToRun⟩

/-! ## Basic lemmas about the world operations -/

theorem makedirs_files (w : World) (p : String) : (makedirs w p).files = w.files := by
  unfold makedirs; split <;> rfl

theorem makedirs_log (w : World) (p : String) : (makedirs w p).log = w.log := by
  unfold makedirs; split <;> rfl

theorem writeFileW_log (w : World) (p : String) (c : Csv) :
    (writeFileW w p c).log = w.log := rfl

theorem writeFileW_dirs (w : World) (p : String) (c : Csv) :
    (writeFileW w p c).dirs = w.dirs := rfl

theorem writeFileW_files (w : World) (p : String) (c : Csv) :
    (writeFileW w p c).files = upsert w.files p c := rfl

theorem logMsg_files (w : World) (e : LogEvent) : (w.logMsg e).files = w.files := rfl

theorem logMsg_dirs (w : World) (e : LogEvent) : (w.logMsg e).dirs = w.dirs := rfl

theorem logMsg_log (w : World) (e : LogEvent) :
    (w.logMsg e).log = w.log ++ [e] := rfl

theorem lookupFiles_upsert (p : String) (c : Csv) (q : String)
    (files : List (String × Csv)) :
    lookupFiles (upsert files p c) q
      = if q = p then some c else lookupFiles files q := by
  induction files with
  | nil =>
    by_cases h : q = p
    · subst h; simp [upsert, lookupFiles]
    · simp [upsert, lookupFiles, h, Ne.symm h]
  | cons e rest ih =>
    by_cases he : e.1 = p
    · rw [show upsert (e :: rest) p c = (p, c) :: rest from by
        simp [upsert, he]]
      by_cases hq : q = p
      · subst hq; simp [lookupFiles]
      · simp [lookupFiles, hq, Ne.symm hq, he]
    · rw [show upsert (e :: rest) p c = e :: upsert rest p c from by
        simp [upsert, he]]
      by_cases hq : q = p
      · subst hq
        simp only [lookupFiles, if_neg he, ih, if_pos rfl]
      · by_cases heq : e.1 = q <;> simp [lookupFiles, heq, ih, hq]

theorem lookupFiles_eq_none_iff (files : List (String × Csv)) (p : String) :
    lookupFiles files p = none ↔ ∀ e ∈ files, e.1 ≠ p := by
  induction files with
  | nil => simp [lookupFiles]
  | cons e rest ih =>
    by_cases he : e.1 = p <;> simp [lookupFiles, he, ih]

theorem upsert_of_forall_ne (files : List (String × Csv)) (p : String) (c : Csv)
    (h : ∀ e ∈ files, e.1 ≠ p) : upsert files p c = files ++ [(p, c)] := by
  induction files with
  | nil => rfl
  | cons e rest ih =>
    have he : e.1 ≠ p := h e (List.mem_cons_self e rest)
    simp only [upsert, if_neg he, List.cons_append]
    rw [ih (fun x hx => h x (List.mem_cons_of_mem e hx))]

theorem mem_upsert (files : List (String × Csv)) (p : String) (c : Csv)
    (x : String × Csv) (h : x ∈ upsert files p c) : x ∈ files ∨ x = (p, c) := by
  induction files with
  | nil => right; simpa [upsert] using h
  | cons e rest ih =>
    by_cases he : e.1 = p
    · rw [show upsert (e :: rest) p c = (p, c) :: rest from by
        simp [upsert, he]] at h
      rcases List.mem_cons.mp h with h1 | h2
      · exact Or.inr h1
      · exact Or.inl (List.mem_cons_of_mem e h2)
    · rw [show upsert (e :: rest) p c = e :: upsert rest p c from by
        simp [upsert, he]] at h
      rcases List.mem_cons.mp h with h1 | h2
      · exact Or.inl (h1 ▸ List.mem_cons_self e rest)
      · rcases ih h2 with h3 | h3
        · exact Or.inl (List.mem_cons_of_mem e h3)
        · exact Or.inr h3

/-! ## Lemmas about the key sort -/

theorem perm_insertSorted (k : String) (l : List String) :
    (insertSorted k l).Perm (k :: l) := by
  induction l with
  | nil => exact List.Perm.refl _
  | cons x xs ih =>
    unfold insertSorted
    split
    · exact List.Perm.refl _
    · exact (List.Perm.cons x ih).trans (List.Perm.swap k x xs)

theorem perm_sortStrings (l : List String) : (sortStrings l).Perm l := by
  induction l with
  | nil => exact List.Perm.refl _
  | cons x xs ih =>
    unfold sortStrings
    exact (perm_insertSorted x (sortStrings xs)).trans (List.Perm.cons x ih)

theorem nodup_dateKeys (df : DataFrame) : (dateKeys df).Nodup :=
  ((perm_sortStrings _).nodup_iff).mpr (List.nodup_dedup _)

theorem mem_dateKeys_iff (df : DataFrame) (k : String) :
    k ∈ dateKeys df
      ↔ k ∈ df.rows.map (fun r => cellAt r (df.columns.indexOf "date")) := by
  unfold dateKeys
  rw [(perm_sortStrings _).mem_iff, List.mem_dedup]

/-! ## Lemmas about `saveStep` and its fold -/

theorem saveStep_files_some (rt base : String) (cols : List String) (w : World)
    (g : String × List (List String)) (d : Date) (h : strptimeYMD g.1 = some d) :
    (saveStep rt base cols w g).files
      = upsert w.files (filePathOf base rt d) ⟨cols, g.2⟩ := by
  unfold saveStep
  rw [h]
  simp only [writeFileW_files, makedirs_files]

theorem saveStep_files_none (rt base : String) (cols : List String) (w : World)
    (g : String × List (List String)) (h : strptimeYMD g.1 = none) :
    (saveStep rt base cols w g).files = w.files := by
  unfold saveStep
  rw [h]
  rfl

theorem saveStep_log_some (rt base : String) (cols : List String) (w : World)
    (g : String × List (List String)) (d : Date) (h : strptimeYMD g.1 = some d) :
    (saveStep rt base cols w g).log = w.log := by
  unfold saveStep
  rw [h]
  simp only [writeFileW_log, makedirs_log]

theorem saveStep_log_none (rt base : String) (cols : List String) (w : World)
    (g : String × List (List String)) (h : strptimeYMD g.1 = none) :
    (saveStep rt base cols w g).log = w.log ++ [LogEvent.invalidDateFormat g.1] := by
  unfold saveStep
  rw [h]
  rfl

theorem foldl_saveStep_log_ext (rt base : String) (cols : List String)
    (l : List (String × List (List String))) :
    ∀ w : World, ∃ t, (List.foldl (saveStep rt base cols) w l).log = w.log ++ t := by
  induction l with
  | nil => intro w; exact ⟨[], by simp⟩
  | cons g rest ih =>
    intro w
    obtain ⟨t, ht⟩ := ih (saveStep rt base cols w g)
    rw [List.foldl_cons]
    cases h : strptimeYMD g.1 with
    | none =>
      refine ⟨LogEvent.invalidDateFormat g.1 :: t, ?_⟩
      rw [ht, saveStep_log_none rt base cols w g h]
      simp
    | some d =>
      exact ⟨t, by rw [ht, saveStep_log_some rt base cols w g d h]⟩

theorem mem_log_foldl_saveStep (rt base : String) (cols : List String)
    (l : List (String × List (List String))) (w : World) (e : LogEvent)
    (h : e ∈ w.log) : e ∈ (List.foldl (saveStep rt base cols) w l).log := by
  obtain ⟨t, ht⟩ := foldl_saveStep_log_ext rt base cols l w
  rw [ht]
  exact List.mem_append_left t h

theorem invalid_logged_foldl (rt base : String) (cols : List String)
    (l : List (String × List (List String))) :
    ∀ (w : World) (k : String) (rs : List (List String)),
      (k, rs) ∈ l → strptimeYMD k = none →
      LogEvent.invalidDateFormat k ∈ (List.foldl (saveStep rt base cols) w l).log := by
  induction l with
  | nil => intro w k rs hmem _; exact absurd hmem (List.not_mem_nil _)
  | cons g rest ih =>
    intro w k rs hmem hnone
    rw [List.foldl_cons]
    rcases List.mem_cons.mp hmem with h1 | h2
    · apply mem_log_foldl_saveStep
      have hg1 : g.1 = k := by rw [← h1]
      rw [show saveStep rt base cols w g = w.logMsg (.invalidDateFormat g.1) from by
        unfold saveStep; rw [hg1, hnone]]
      rw [logMsg_log, hg1]
      exact List.mem_append_right _ (List.mem_singleton.mpr rfl)
    · exact ih (saveStep rt base cols w g) k rs h2 hnone

theorem lookup_some_saveStep (rt base : String) (cols : List String) (w : World)
    (g : String × List (List String)) (q : String)
    (h : ∃ c, lookupFiles w.files q = some c) :
    ∃ c, lookupFiles (saveStep rt base cols w g).files q = some c := by
  cases hp : strptimeYMD g.1 with
  | none => rw [saveStep_files_none rt base cols w g hp]; exact h
  | some d =>
    rw [saveStep_files_some rt base cols w g d hp, lookupFiles_upsert]
    by_cases hq : q = filePathOf base rt d
    · exact ⟨⟨cols, g.2⟩, by rw [if_pos hq]⟩
    · rw [if_neg hq]; exact h

theorem lookup_some_foldl_saveStep (rt base : String) (cols : List String)
    (l : List (String × List (List String))) :
    ∀ (w : World) (q : String), (∃ c, lookupFiles w.files q = some c) →
      ∃ c, lookupFiles (List.foldl (saveStep rt base cols) w l).files q = some c := by
  induction l with
  | nil => intro w q h; exact h
  | cons g rest ih =>
    intro w q h
    rw [List.foldl_cons]
    exact ih (saveStep rt base cols w g) q (lookup_some_saveStep rt base cols w g q h)

theorem good_written_foldl (rt base : String) (cols : List String)
    (l : List (String × List (List String))) :
    ∀ (w : World) (k : String) (rs : List (List String)) (d : Date),
      (k, rs) ∈ l → strptimeYMD k = some d →
      ∃ c, lookupFiles (List.foldl (saveStep rt base cols) w l).files
        (filePathOf base rt d) = some c := by
  induction l with
  | nil => intro w k rs d hmem _; exact absurd hmem (List.not_mem_nil _)
  | cons g rest ih =>
    intro w k rs d hmem hsome
    rw [List.foldl_cons]
    rcases List.mem_cons.mp hmem with h1 | h2
    · apply lookup_some_foldl_saveStep
      have hg1 : g.1 = k := by rw [← h1]
      rw [saveStep_files_some rt base cols w g d (by rw [hg1]; exact hsome),
        lookupFiles_upsert, if_pos rfl]
      exact ⟨⟨cols, g.2⟩, rfl⟩
    · exact ih (saveStep rt base cols w g) k rs d h2 hsome

theorem mem_files_foldl_saveStep (rt base : String) (cols : List String)
    (l : List (String × List (List String))) :
    ∀ (w : World) (x : String × Csv),
      x ∈ (List.foldl (saveStep rt base cols) w l).files →
      x ∈ w.files ∨ ∃ g, g ∈ l ∧ ∃ d, strptimeYMD g.1 = some d
        ∧ x = (filePathOf base rt d, ⟨cols, g.2⟩) := by
  induction l with
  | nil => intro w x hx; exact Or.inl hx
  | cons g rest ih =>
    intro w x hx
    rw [List.foldl_cons] at hx
    rcases ih (saveStep rt base cols w g) x hx with h1 | h2
    · cases hp : strptimeYMD g.1 with
      | none => rw [saveStep_files_none rt base cols w g hp] at h1; exact Or.inl h1
      | some d =>
        rw [saveStep_files_some rt base cols w g d hp] at h1
        rcases mem_upsert _ _ _ _ h1 with h3 | h3
        · exact Or.inl h3
        · exact Or.inr ⟨g, List.mem_cons_self g rest, d, hp, h3⟩
    · obtain ⟨g', hg', hrest⟩ := h2
      exact Or.inr ⟨g', List.mem_cons_of_mem g hg', hrest⟩

/-! ## Lemmas about `executeRequest` -/

theorem executeRequest_requestsSent (p s e : String) (dims : List String)
    (lim : Nat) (api : ApiOutcome) :
    (executeRequest (some ()) p s e dims lim api).requestsSent
      = [⟨s, e, dimsWithDate dims, lim, 0⟩] := by
  cases api with
  | response rows =>
    cases rows with
    | none => rfl
    | some rs => simp only [executeRequest]; split <;> rfl
  | raiseHttpError c => rfl
  | raiseOther m => rfl

theorem executeRequest_dimsAfter (p s e : String) (dims : List String)
    (lim : Nat) (api : ApiOutcome) :
    (executeRequest (some ()) p s e dims lim api).dimsAfter = dimsWithDate dims := by
  cases api with
  | response rows =>
    cases rows with
    | none => rfl
    | some rs => simp only [executeRequest]; split <;> rfl
  | raiseHttpError c => rfl
  | raiseOther m => rfl

theorem count_date_dimsWithDate (dims : List String)
    (h : dims.count "date" ≤ 1) : (dimsWithDate dims).count "date" = 1 := by
  unfold dimsWithDate
  cases hc : dims.contains "date" with
  | true =>
    rw [if_pos rfl]
    have hm : "date" ∈ dims := List.elem_iff.mp hc
    have h1 : 0 < dims.count "date" := List.count_pos_iff.mpr hm
    omega
  | false =>
    rw [if_neg (by simp)]
    have hm : "date" ∉ dims := by
      intro hmem
      have ht : dims.contains "date" = true := List.elem_iff.mpr hmem
      rw [ht] at hc
      simp at hc
    rw [List.count_append, List.count_eq_zero.mpr hm]
    rfl

/-! ## Lemmas for the one-file-per-date analysis -/

theorem filePathOf_inj (base rt : String) (d d' : Date)
    (h : strftimeYMD d ≠ strftimeYMD d') :
    filePathOf base rt d ≠ filePathOf base rt d' := by
  intro he
  apply h
  have hd : (filePathOf base rt d).data = (filePathOf base rt d').data :=
    congrArg String.data he
  simp only [filePathOf, dirPathOf, fileNameOf, String.data_append,
    List.append_assoc] at hd
  have h1 := List.append_cancel_left hd
  have h2 := List.append_cancel_left h1
  have h3 := List.append_cancel_left h2
  have h4 := List.append_cancel_left h3
  have h5 := List.append_cancel_left h4
  have h6 := List.append_cancel_left h5
  exact String.ext (List.append_cancel_right h6)

theorem foldl_saveStep_files_of_fresh (rt base : String) (cols : List String)
    (l : List (String × List (List String))) :
    ∀ w : World,
    (∀ g ∈ l, ∀ d : Date, strptimeYMD g.1 = some d →
        lookupFiles w.files (filePathOf base rt d) = none) →
    List.Pairwise (fun g g' => ∀ (d d' : Date), strptimeYMD g.1 = some d →
        strptimeYMD g'.1 = some d' →
        filePathOf base rt d ≠ filePathOf base rt d') l →
    (List.foldl (saveStep rt base cols) w l).files
      = w.files ++ l.filterMap
          (fun g => (strptimeYMD g.1).map
            (fun d => (filePathOf base rt d, ⟨cols, g.2⟩))) := by
  induction l with
  | nil => intro w _ _; simp
  | cons g rest ih =>
    intro w hfresh hpair
    rw [List.foldl_cons]
    cases hp : strptimeYMD g.1 with
    | none =>
      have hw : (saveStep rt base cols w g).files = w.files :=
        saveStep_files_none rt base cols w g hp
      rw [ih (saveStep rt base cols w g)
        (fun g' hg' d' hd' => by
          rw [hw]; exact hfresh g' (List.mem_cons_of_mem g hg') d' hd')
        ((List.pairwise_cons.mp hpair).2)]
      rw [hw]
      simp [List.filterMap_cons, hp]
    | some d =>
      have hself : lookupFiles w.files (filePathOf base rt d) = none :=
        hfresh g (List.mem_cons_self g rest) d hp
      have hw : (saveStep rt base cols w g).files
          = w.files ++ [(filePathOf base rt d, ⟨cols, g.2⟩)] := by
        rw [saveStep_files_some rt base cols w g d hp]
        exact upsert_of_forall_ne _ _ _
          ((lookupFiles_eq_none_iff w.files (filePathOf base rt d)).mp hself)
      rw [ih (saveStep rt base cols w g)
        (fun g' hg' d' hd' => by
          rw [hw, lookupFiles_eq_none_iff]
          intro x hx
          rcases List.mem_append.mp hx with h1 | h1
          · exact (lookupFiles_eq_none_iff w.files (filePathOf base rt d')).mp
              (hfresh g' (List.mem_cons_of_mem g hg') d' hd') x h1
          · rw [List.mem_singleton.mp h1]
            exact (List.pairwise_cons.mp hpair).1 g' hg' d d' hp hd')
        ((List.pairwise_cons.mp hpair).2)]
      rw [hw, List.append_assoc, List.singleton_append]
      simp [List.filterMap_cons, hp]

theorem lookup_filterMap_entries (base rt : String) (content : String → Csv)
    (keys : List String) :
    keys.Nodup →
    (∀ k ∈ keys, ∀ d : Date, strptimeYMD k = some d → strftimeYMD d = k) →
    ∀ (k : String) (d : Date), k ∈ keys → strptimeYMD k = some d →
    lookupFiles
        (keys.filterMap (fun x => (strptimeYMD x).map
          (fun dx => (filePathOf base rt dx, content x))))
        (filePathOf base rt d)
      = some (content k) := by
  induction keys with
  | nil => intro _ _ k d hk _; exact absurd hk (List.not_mem_nil k)
  | cons k0 rest ih =>
    intro hnd hcanon k d hk hd
    rw [List.filterMap_cons]
    rcases List.mem_cons.mp hk with h1 | h1
    · subst h1
      rw [hd, Option.map_some']
      show lookupFiles ((filePathOf base rt d, content k) :: _) _ = _
      unfold lookupFiles
      rw [if_pos rfl]
    · have hk0 : k0 ∉ rest := (List.nodup_cons.mp hnd).1
      have hne : k0 ≠ k := fun h => hk0 (h ▸ h1)
      have ihr := ih (List.nodup_cons.mp hnd).2
        (fun x hx dx hdx => hcanon x (List.mem_cons_of_mem k0 hx) dx hdx)
        k d h1 hd
      cases hp0 : strptimeYMD k0 with
      | none => rw [Option.map_none']; exact ihr
      | some d0 =>
        rw [Option.map_some']
        show lookupFiles ((filePathOf base rt d0, content k0) :: _) _ = _
        unfold lookupFiles
        rw [if_neg]
        · exact ihr
        · apply filePathOf_inj
          rw [hcanon k0 (List.mem_cons_self k0 rest) d0 hp0,
            hcanon k (List.mem_cons.mpr (Or.inr h1)) d hd]
          exact hne

theorem length_filterMap_eq_count_isSome {α β : Type} (f : α → Option β)
    (l : List α) :
    (l.filterMap f).length = (l.filter (fun x => (f x).isSome)).length := by
  induction l with
  | nil => rfl
  | cons x xs ih =>
    rw [List.filterMap_cons]
    cases hf : f x with
    | none => simp [List.filter_cons, hf, ih]
    | some b => simp [List.filter_cons, hf, ih]

/-! ## Claim theorems -/

/-- C2, counterexample: the claim says the dimension list sent in the query
request contains the date dimension exactly once for EVERY caller-supplied
dimension list.  A caller-supplied list that already contains the date
dimension twice is passed through unchanged (line 62 only checks membership),
so the request carries it twice, not once. -/
theorem C2_counterexample :
    ((executeRequest (some ()) "sc-domain:example.com" "2024-01-01" "2024-01-07"
        ["date", "date"] 25000 (.response none)).requestsSent.map
      (fun b => b.dimensions.count "date")) = [2] := by
  rfl

/-- C2 (amended): for every caller-supplied dimension list that contains the
date dimension at most once (as all seven report definitions do), every
request sent by a query contains the date dimension exactly once, whether or
not the caller included it; in general the request always contains it at
least once. -/
theorem C2_date_once (p s e : String) (dims : List String) (lim : Nat)
    (api : ApiOutcome) (h : dims.count "date" ≤ 1) :
    (∀ body ∈ (executeRequest (some ()) p s e dims lim api).requestsSent,
      body.dimensions.count "date" = 1)
    ∧ (∀ rep ∈ reportsToRun, rep.2.count "date" ≤ 1) := by
  constructor
  · intro body hb
    rw [executeRequest_requestsSent] at hb
    rw [List.mem_singleton.mp hb]
    exact count_date_dimsWithDate dims h
  · intro rep hr
    fin_cases hr <;> simp

/-- C2 witness: the query report definition, whose dimension list does not
contain the date dimension, yields a request mentioning it exactly once. -/
theorem C2_witness :
    (["query"] : List String).count "date" ≤ 1
      ∧ ∀ body ∈ (executeRequest (some ()) "p" "2024-01-01" "2024-01-07"
          ["query"] 25000 (.response none)).requestsSent,
        body.dimensions.count "date" = 1 :=
  ⟨by decide,
   (C2_date_once "p" "2024-01-01" "2024-01-07" ["query"] 25000
     (.response none) (by decide)).1⟩

/-- C4: a query returns the empty DataFrame when the handle is
uninitialized, when the response has no rows (the rows key absent or an
empty row list), and when the request raises an HTTP error or any other
exception; no call ever issues more than one request (never retries); and
the orchestrator loop writes no file and creates no directory for a report
whose query came back empty. -/
theorem C4_failure_empty_table :
    (∀ (service : Option Unit) (p s e : String) (dims : List String)
        (lim : Nat) (api : ApiOutcome),
      (service = none ∨ api = .response none ∨ api = .response (some [])
          ∨ (∃ c, api = .raiseHttpError c) ∨ (∃ m, api = .raiseOther m)) →
      (executeRequest service p s e dims lim api).df = DataFrame.emptyDF)
    ∧ (∀ (service : Option Unit) (p s e : String) (dims : List String)
        (lim : Nat) (api : ApiOutcome),
      (executeRequest service p s e dims lim api).requestsSent.length ≤ 1)
    ∧ (∀ (p s e out : String) (lim : Nat) (api : String → ApiOutcome)
        (acc : World × List RequestBody) (rep : String × List String),
      (executeRequest (some ()) p s e (listCopy rep.2) lim (api rep.1)).df.isEmpty
          = true →
      (reportStep p s e out lim api acc rep).1.files = acc.1.files
        ∧ (reportStep p s e out lim api acc rep).1.dirs = acc.1.dirs) := by
  refine ⟨?_, ?_, ?_⟩
  · intro service p s e dims lim api h
    rcases h with h | h | h | ⟨c, h⟩ | ⟨m, h⟩
    · subst h; rfl
    · subst h; cases service <;> rfl
    · subst h; cases service <;> rfl
    · subst h; cases service <;> rfl
    · subst h; cases service <;> rfl
  · intro service p s e dims lim api
    cases service with
    | none => simp [executeRequest]
    | some u =>
      cases api with
      | response rows =>
        cases rows with
        | none => simp [executeRequest]
        | some rs => simp only [executeRequest]; split <;> simp
      | raiseHttpError c => simp [executeRequest]
      | raiseOther m => simp [executeRequest]
  · intro p s e out lim api acc rep h
    constructor <;> simp [reportStep, h, logMsg_files, logMsg_dirs]

/-- C4 witness: with an authenticated handle and a response without rows,
the query returns the empty DataFrame and the report loop iteration leaves
the filesystem untouched. -/
theorem C4_witness :
    (executeRequest (some ()) "p" "2024-01-01" "2024-01-07" ["query"] 25000
        (.response none)).df = DataFrame.emptyDF
      ∧ (reportStep "p" "2024-01-01" "2024-01-07" "out" 25000
          (fun _ => .response none) (World.emptyW, []) ("query", ["query"])).1.files
        = World.emptyW.files :=
  ⟨C4_failure_empty_table.1 (some ()) "p" "2024-01-01" "2024-01-07" ["query"]
      25000 (.response none) (Or.inr (Or.inl rfl)),
   (C4_failure_empty_table.2.2 "p" "2024-01-01" "2024-01-07" "out" 25000
      (fun _ => .response none) (World.emptyW, []) ("query", ["query"])
      (by decide)).1⟩

/-- C6: when the table has no date column, save_daily_csvs logs the error
and returns with the filesystem (files and directories) unchanged. -/
theorem C6_no_date_column (df : DataFrame) (rt base : String) (w : World)
    (h : df.columns.contains "date" = false) :
    (saveDailyCsvs df rt base w).files = w.files
      ∧ (saveDailyCsvs df rt base w).dirs = w.dirs
      ∧ (saveDailyCsvs df rt base w).log = w.log ++ [LogEvent.noDateColumn rt] := by
  unfold saveDailyCsvs
  rw [if_pos (by rw [h]; simp)]
  exact ⟨rfl, rfl, rfl⟩

/-- C6 witness: a concrete table without a date column. -/
theorem C6_witness :
    (DataFrame.mk ["clicks", "impressions"] [["1", "2"]]).columns.contains "date"
        = false
      ∧ (saveDailyCsvs ⟨["clicks", "impressions"], [["1", "2"]]⟩ "query" "out"
          World.emptyW).files = World.emptyW.files :=
  ⟨by decide,
   (C6_no_date_column ⟨["clicks", "impressions"], [["1", "2"]]⟩ "query" "out"
     World.emptyW (by decide)).1⟩

/-- C7: when the service-account file is missing, authentication logs the
specific path and yields a null handle, and the run terminates having sent
no request and written no file or directory. -/
theorem C7_missing_credential (sa p s e out : String) (lim : Nat)
    (api : String → ApiOutcome) :
    authenticate sa .fileNotFound = (none, [LogEvent.authFileNotFound sa])
      ∧ (runMain sa p s e out lim .fileNotFound api).requests = []
      ∧ (runMain sa p s e out lim .fileNotFound api).world.files = []
      ∧ (runMain sa p s e out lim .fileNotFound api).world.dirs = []
      ∧ (runMain sa p s e out lim .fileNotFound api).world.log
          = [LogEvent.authFileNotFound sa, LogEvent.failedInit] :=
  ⟨rfl, rfl, rfl, rfl, rfl⟩

/-- C8, counterexample: the claim says the rowLimit field of every request
is at most 25000 even when the user supplies a larger limit.  The code never
clamps: a run with limit 30000 sends rowLimit 30000 in all seven requests. -/
theorem C8_counterexample :
    ((runMain "sa.json" "sc-domain:example.com" "2024-01-01" "2024-01-31"
        "out" 30000 .ok (fun _ => .response none)).requests.map
      (fun b => b.rowLimit))
      = [30000, 30000, 30000, 30000, 30000, 30000, 30000]
    ∧ ¬ (30000 ≤ 25000) :=
  ⟨rfl, by omega⟩

/-- C8 (amended): the rowLimit field of every request sent during a run
equals the caller-supplied limit unchanged (default 25000); the client never
clamps it to 25000, so a larger --limit value is sent as given. -/
theorem C8_rowLimit_passthrough (sa p s e out : String) (lim : Nat)
    (auth : AuthOutcome) (api : String → ApiOutcome) :
    ∀ body ∈ (runMain sa p s e out lim auth api).requests,
      body.rowLimit = lim := by
  cases auth with
  | fileNotFound => intro body hb; exact absurd hb (List.not_mem_nil body)
  | otherError m => intro body hb; exact absurd hb (List.not_mem_nil body)
  | ok =>
    have hfold : ∀ (l : List (String × List String))
        (acc : World × List RequestBody),
        (∀ b ∈ acc.2, b.rowLimit = lim) →
        ∀ b ∈ (List.foldl (reportStep p s e out lim api) acc l).2,
          b.rowLimit = lim := by
      intro l
      induction l with
      | nil => intro acc hacc b hb; exact hacc b hb
      | cons rep rest ih =>
        intro acc hacc b hb
        rw [List.foldl_cons] at hb
        refine ih (reportStep p s e out lim api acc rep) ?_ b hb
        intro b' hb'
        have : (reportStep p s e out lim api acc rep).2
            = acc.2 ++ (executeRequest (some ()) p s e (listCopy rep.2) lim
              (api rep.1)).requestsSent := rfl
        rw [this] at hb'
        rcases List.mem_append.mp hb' with h1 | h1
        · exact hacc b' h1
        · rw [executeRequest_requestsSent] at h1
          rw [List.mem_singleton.mp h1]
    exact hfold reportsToRun _ (fun b hb => absurd hb (List.not_mem_nil b))

/-- C8 witness: the first request of a run with limit 30000 carries
rowLimit 30000. -/
theorem C8_witness :
    (⟨"2024-01-01", "2024-01-31", ["page", "query", "country", "device", "date"],
        30000, 0⟩ : RequestBody)
      ∈ (runMain "sa.json" "sc-domain:example.com" "2024-01-01" "2024-01-31"
          "out" 30000 .ok (fun _ => .response none)).requests
    ∧ (⟨"2024-01-01", "2024-01-31",
        ["page", "query", "country", "device", "date"], 30000, 0⟩ :
          RequestBody).rowLimit = 30000 :=
  ⟨by decide,
   C8_rowLimit_passthrough "sa.json" "sc-domain:example.com" "2024-01-01"
     "2024-01-31" "out" 30000 .ok (fun _ => .response none) _ (by decide)⟩

/-- C9: execute_request mutates the caller-supplied dimensions list in
place: when the date dimension is absent the list object the caller passed
has gained the date element by the time the call returns; and the
orchestrator passes a copy of each stored report dimension list, so the
report table is unchanged after the whole run. -/
theorem C9_in_place_append :
    (∀ (p s e : String) (dims : List String) (lim : Nat) (api : ApiOutcome),
      "date" ∉ dims →
      (executeRequest (some ()) p s e dims lim api).dimsAfter = dims ++ ["date"])
    ∧ (∀ (sa p s e out : String) (lim : Nat) (auth : AuthOutcome)
        (api : String → ApiOutcome),
      (runMain sa p s e out lim auth api).reportsTable = reportsToRun) := by
  constructor
  · intro p s e dims lim api h
    rw [executeRequest_dimsAfter]
    unfold dimsWithDate
    rw [if_neg]
    intro hcc
    exact h (List.elem_iff.mp hcc)
  · intro sa p s e out lim auth api
    cases auth <;> rfl

/-- C9 witness: the query report dimension list gains the date element. -/
theorem C9_witness :
    "date" ∉ (["query"] : List String)
      ∧ (executeRequest (some ()) "p" "2024-01-01" "2024-01-07" ["query"] 25000
          (.response none)).dimsAfter = ["query"] ++ ["date"] :=
  ⟨by decide,
   C9_in_place_append.1 "p" "2024-01-01" "2024-01-07" ["query"] 25000
     (.response none) (by decide)⟩

theorem saveDailyCsvs_mem_files (df : DataFrame) (rt base : String) (w : World)
    (p : String) (c : Csv) (h : (p, c) ∈ (saveDailyCsvs df rt base w).files) :
    (p, c) ∈ w.files ∨ ∃ k d, k ∈ dateKeys df ∧ strptimeYMD k = some d
      ∧ p = filePathOf base rt d ∧ c = ⟨df.columns, groupRows df k⟩ := by
  unfold saveDailyCsvs at h
  split at h
  · exact Or.inl h
  · rcases mem_files_foldl_saveStep rt base df.columns (groupByDate df)
        (w.logMsg (.splittingInfo rt (groupByDate df).length)) (p, c) h with h1 | h2
    · exact Or.inl h1
    · obtain ⟨g, hg, d, hd, hx⟩ := h2
      obtain ⟨k, hk, hgk⟩ := List.mem_map.mp hg
      right
      refine ⟨k, d, hk, ?_, ?_, ?_⟩
      · rw [← show g.1 = k from by rw [← hgk]]; exact hd
      · exact congrArg Prod.fst hx
      · have h2 := congrArg Prod.snd hx
        simp only at h2
        rw [h2, ← hgk]

/-- C3, counterexample: the claim says the daily CSV columns are the request
dimensions followed by the metrics.  In the code the keys column of the
response DataFrame comes first and is dropped, so the written header is the
metrics (clicks, impressions, ctr, position) followed by the dimensions, not
the other way round. -/
theorem C3_counterexample :
    fileLookup
        (saveDailyCsvs
          (executeRequest (some ()) "p" "2024-01-01" "2024-01-02" ["query"] 25000
            (.response (some [⟨["q1", "2024-01-01"], "5", "50", "0.1", "1.2"⟩]))).df
          "query" "out" World.emptyW)
        "out/query/query_2024-01-01.csv"
      = some ⟨["clicks", "impressions", "ctr", "position", "query", "date"],
          [["5", "50", "0.1", "1.2", "q1", "2024-01-01"]]⟩
    ∧ (["clicks", "impressions", "ctr", "position", "query", "date"] : List String)
        ≠ ["query", "date"] ++ ["clicks", "impressions", "ctr", "position"] := by
  constructor
  · rfl
  · decide

/-- C3 (amended): every successful query produces a DataFrame whose columns
are the metrics (clicks, impressions, ctr, position) followed by the request
dimensions in request order, and every daily CSV file written from it has a
header row equal to those columns. -/
theorem C3_header_metrics_then_dims (p s e : String) (dims : List String)
    (lim : Nat) (rows : List ApiRow) (hne : rows ≠ [])
    (hlen : ∀ r ∈ rows, r.keys.length = (dimsWithDate dims).length) :
    (executeRequest (some ()) p s e dims lim (.response (some rows))).df.columns
        = metricCols ++ dimsWithDate dims
    ∧ ∀ (rt base : String) (w : World) (pth : String) (c : Csv),
        (pth, c) ∈ (saveDailyCsvs
            (executeRequest (some ()) p s e dims lim (.response (some rows))).df
            rt base w).files →
        (pth, c) ∈ w.files ∨ c.header = metricCols ++ dimsWithDate dims := by
  have hdf : (executeRequest (some ()) p s e dims lim (.response (some rows))).df
      = reshapeResponse (dimsWithDate dims) rows := by
    simp only [executeRequest]
    rw [if_pos]
    rw [Bool.and_eq_true]
    constructor
    · cases rows with
      | nil => exact absurd rfl hne
      | cons r rs => rfl
    · rw [List.all_eq_true]
      intro r hr
      exact Nat.beq_eq_true_eq _ _ |>.mpr (hlen r hr)
  constructor
  · rw [hdf]; rfl
  · intro rt base w pth c hmem
    rcases saveDailyCsvs_mem_files _ rt base w pth c hmem with h1 | h2
    · exact Or.inl h1
    · obtain ⟨k, d, _, _, _, hc⟩ := h2
      right
      rw [hc, hdf]
      rfl

/-- C3 witness: a one-row response for the query report. -/
theorem C3_witness :
    ([⟨["q1", "2024-01-01"], "5", "50", "0.1", "1.2"⟩] : List ApiRow) ≠ []
      ∧ (executeRequest (some ()) "p" "2024-01-01" "2024-01-02" ["query"] 25000
          (.response (some [⟨["q1", "2024-01-01"], "5", "50", "0.1", "1.2"⟩]))).df.columns
        = metricCols ++ dimsWithDate ["query"] :=
  ⟨by decide,
   (C3_header_metrics_then_dims "p" "2024-01-01" "2024-01-02" ["query"] 25000
     [⟨["q1", "2024-01-01"], "5", "50", "0.1", "1.2"⟩] (by decide) (by decide)).1⟩

/-- C5: in a table with a date column, a group whose date value fails
YYYY-MM-DD parsing is skipped with a log message while every group with a
parseable date still gets its file written; the failure does not abort
save_daily_csvs, and every file present afterwards is either preexisting or
the file of some parseable date group. -/
theorem C5_bad_date_group_skipped (df : DataFrame) (rt base : String) (w : World)
    (bad good : String) (d : Date)
    (hcol : df.columns.contains "date" = true)
    (hbad : bad ∈ dateKeys df) (hbadp : strptimeYMD bad = none)
    (hgood : good ∈ dateKeys df) (hgoodp : strptimeYMD good = some d) :
    LogEvent.invalidDateFormat bad ∈ (saveDailyCsvs df rt base w).log
    ∧ (∃ c, fileLookup (saveDailyCsvs df rt base w) (filePathOf base rt d) = some c)
    ∧ (∀ (pth : String) (c : Csv), (pth, c) ∈ (saveDailyCsvs df rt base w).files →
        (pth, c) ∈ w.files ∨ ∃ k d', k ∈ dateKeys df ∧ strptimeYMD k = some d'
          ∧ pth = filePathOf base rt d' ∧ c = ⟨df.columns, groupRows df k⟩) := by
  refine ⟨?_, ?_, fun pth c hmem => saveDailyCsvs_mem_files df rt base w pth c hmem⟩
  · unfold saveDailyCsvs
    rw [if_neg (by rw [hcol]; simp)]
    rw [logMsg_log]
    apply List.mem_append_left
    exact invalid_logged_foldl rt base df.columns (groupByDate df) _ bad
      (groupRows df bad) (List.mem_map.mpr ⟨bad, hbad, rfl⟩) hbadp
  · unfold saveDailyCsvs fileLookup
    rw [if_neg (by rw [hcol]; simp)]
    rw [logMsg_files]
    exact good_written_foldl rt base df.columns (groupByDate df) _ good
      (groupRows df good) d (List.mem_map.mpr ⟨good, hgood, rfl⟩) hgoodp

/-- C5 witness: a table with one parseable and one unparseable date. -/
theorem C5_witness :
    (DataFrame.mk ["clicks", "date"] [["1", "2024-01-01"], ["2", "garbage"]]).columns.contains
        "date" = true
      ∧ LogEvent.invalidDateFormat "garbage"
        ∈ (saveDailyCsvs ⟨["clicks", "date"], [["1", "2024-01-01"], ["2", "garbage"]]⟩
            "query" "out" World.emptyW).log :=
  ⟨by decide,
   (C5_bad_date_group_skipped
     ⟨["clicks", "date"], [["1", "2024-01-01"], ["2", "garbage"]]⟩ "query" "out"
     World.emptyW "garbage" "2024-01-01" ⟨2024, 1, 1⟩ (by decide) (by decide)
     (by decide) (by decide) (by decide)).1⟩

/-- C1, counterexample: the claim promises one file per distinct parseable
date value, each containing exactly the matching rows.  The file name is
built from the parsed-then-reformatted date, so the two distinct parseable
values 2024-01-01 and 2024-1-1 collapse to the same file name and the later
group overwrites the earlier one: one file remains, and it holds the rows of
the non-canonical value even though its name says 2024-01-01. -/
theorem C1_counterexample :
    (strptimeYMD "2024-01-01").isSome = true
    ∧ (strptimeYMD "2024-1-1").isSome = true
    ∧ ("2024-01-01" : String) ≠ "2024-1-1"
    ∧ dateKeys ⟨["clicks", "date"], [["1", "2024-01-01"], ["2", "2024-1-1"]]⟩
        = ["2024-01-01", "2024-1-1"]
    ∧ (saveDailyCsvs ⟨["clicks", "date"], [["1", "2024-01-01"], ["2", "2024-1-1"]]⟩
        "query" "out" World.emptyW).files
      = [("out/query/query_2024-01-01.csv",
          ⟨["clicks", "date"], [["2", "2024-1-1"]]⟩)] :=
  ⟨rfl, rfl, by decide, rfl, rfl⟩

/-- C1 (amended): for every flat table with a date column all of whose
parseable date values are in canonical form (they round-trip through parse
and reformat unchanged), save_daily_csvs starting from an empty filesystem
produces exactly one file per distinct parseable date value, at path
baseDir/reportType/reportType_date.csv, whose rows are exactly the rows of
the table whose date equals that value (no drops, no duplicates), and no
other file. -/
theorem C1_one_file_per_date (df : DataFrame) (rt base : String)
    (hcol : df.columns.contains "date" = true)
    (hcanon : (dateKeys df).all
        (fun k => ((strptimeYMD k).map strftimeYMD).getD k == k) = true) :
    ((saveDailyCsvs df rt base World.emptyW).files.length
        = ((dateKeys df).filter (fun k => (strptimeYMD k).isSome)).length)
    ∧ (∀ (k : String) (d : Date), k ∈ dateKeys df → strptimeYMD k = some d →
        fileLookup (saveDailyCsvs df rt base World.emptyW)
            (dirPathOf base rt ++ "/" ++ (rt ++ "_" ++ k ++ ".csv"))
          = some ⟨df.columns, groupRows df k⟩)
    ∧ (∀ (pth : String) (c : Csv),
        (pth, c) ∈ (saveDailyCsvs df rt base World.emptyW).files →
        ∃ k d, k ∈ dateKeys df ∧ strptimeYMD k = some d
          ∧ pth = filePathOf base rt d ∧ c = ⟨df.columns, groupRows df k⟩) := by
  have hcanon' : ∀ k ∈ dateKeys df, ∀ d : Date, strptimeYMD k = some d →
      strftimeYMD d = k := by
    intro k hk d hd
    have := List.all_eq_true.mp hcanon k hk
    rw [hd, Option.map_some', Option.getD_some] at this
    exact beq_iff_eq.mp this
  have hpair : List.Pairwise (fun g g' => ∀ (d d' : Date),
      strptimeYMD g.1 = some d → strptimeYMD g'.1 = some d' →
      filePathOf base rt d ≠ filePathOf base rt d') (groupByDate df) := by
    unfold groupByDate
    rw [List.pairwise_map]
    refine List.Pairwise.imp_of_mem ?_ (nodup_dateKeys df)
    intro k k' hk hk' hne d d' hd hd'
    apply filePathOf_inj
    rw [hcanon' k hk d hd, hcanon' k' hk' d' hd']
    exact hne
  have hfiles : (saveDailyCsvs df rt base World.emptyW).files
      = (dateKeys df).filterMap (fun k => (strptimeYMD k).map
          (fun d => (filePathOf base rt d, ⟨df.columns, groupRows df k⟩))) := by
    unfold saveDailyCsvs
    rw [if_neg (by rw [hcol]; simp)]
    rw [logMsg_files]
    rw [foldl_saveStep_files_of_fresh rt base df.columns (groupByDate df)
      (World.emptyW.logMsg (.splittingInfo rt (groupByDate df).length))
      (fun g _ d _ => rfl) hpair]
    rw [show (World.emptyW.logMsg
        (.splittingInfo rt (groupByDate df).length)).files = [] from rfl]
    rw [List.nil_append]
    unfold groupByDate
    rw [List.filterMap_map]
    rfl
  refine ⟨?_, ?_, ?_⟩
  · rw [hfiles, length_filterMap_eq_count_isSome]
    congr 1
    apply List.filter_congr
    intro k _
    cases strptimeYMD k <;> rfl
  · intro k d hk hd
    have hkey : dirPathOf base rt ++ "/" ++ (rt ++ "_" ++ k ++ ".csv")
        = filePathOf base rt d := by
      rw [← hcanon' k hk d hd]
      rfl
    rw [hkey]
    unfold fileLookup
    rw [hfiles]
    exact lookup_filterMap_entries base rt
      (fun x => ⟨df.columns, groupRows df x⟩) (dateKeys df) (nodup_dateKeys df)
      hcanon' k d hk hd
  · intro pth c hmem
    rcases saveDailyCsvs_mem_files df rt base World.emptyW pth c hmem with h1 | h2
    · exact absurd h1 (List.not_mem_nil _)
    · exact h2

/-- C1 witness: a table with the two canonical dates 2024-01-01 and
2024-01-02. -/
theorem C1_witness :
    (DataFrame.mk ["clicks", "date"]
        [["1", "2024-01-01"], ["2", "2024-01-02"]]).columns.contains "date" = true
    ∧ ((saveDailyCsvs ⟨["clicks", "date"], [["1", "2024-01-01"], ["2", "2024-01-02"]]⟩
          "query" "out" World.emptyW).files.length
        = ((dateKeys ⟨["clicks", "date"], [["1", "2024-01-01"], ["2", "2024-01-02"]]⟩).filter
            (fun k => (strptimeYMD k).isSome)).length) :=
  ⟨by decide,
   (C1_one_file_per_date
     ⟨["clicks", "date"], [["1", "2024-01-01"], ["2", "2024-01-02"]]⟩
     "query" "out" (by decide) (by decide)).1⟩

/-- C10: save_daily_csvs names the daily file from the
parsed-then-reformatted date, not the raw date string: the non-canonical but
parseable value 2024-1-1 is not skipped, its file is named with the
zero-padded normalization 2024-01-01, and the date stored inside the rows of
the file remains the raw value 2024-1-1, which differs from the name. -/
theorem C10_normalized_file_name :
    strptimeYMD "2024-1-1" = some ⟨2024, 1, 1⟩
    ∧ strftimeYMD ⟨2024, 1, 1⟩ = "2024-01-01"
    ∧ ("2024-01-01" : String) ≠ "2024-1-1"
    ∧ (saveDailyCsvs ⟨["clicks", "date"], [["7", "2024-1-1"]]⟩ "query" "out"
        World.emptyW).files
      = [("out/query/query_2024-01-01.csv",
          ⟨["clicks", "date"], [["7", "2024-1-1"]]⟩)]
    ∧ LogEvent.invalidDateFormat "2024-1-1"
        ∉ (saveDailyCsvs ⟨["clicks", "date"], [["7", "2024-1-1"]]⟩ "query" "out"
            World.emptyW).log :=
  ⟨rfl, rfl, by decide, rfl, by decide⟩

end Gsc
